import Mathlib

/-!
Verification development for the mothra gossip core.

The repository source under src/ consists of the C call boundary
src/bindings/c/mothra.h, which declares the three boundary functions
(libp2p_start, libp2p_send_gossip, receive_gossip).  The gossip engine
behind that boundary (Peer Registry, Message Cache, Mesh Manager,
Propagation Engine) is described by the specification but its code is
not present under src/; those parts are modelled here from the
words of the specification, each such definition marked with a doc comment
starting with "Modelled from the spec:".
-/

namespace Mothra

/-- C types that occur in the declarations of src/bindings/c/mothra.h. -/
inductive CType where
  | void
  | int
  | charPtr
  | charPtrPtr
deriving DecidableEq, Repr

/-- Shape of a C function declaration: name, argument types in order, return type. -/
structure CFunDecl where
  name : String
  args : List CType
  ret : CType
deriving DecidableEq, Repr

/-- Embedding of line 8 of src/bindings/c/mothra.h:
the declaration of libp2p_start, taking a char** and an int length, returning void. -/
def libp2p_start : CFunDecl :=
  ⟨"libp2p_start", [CType.charPtrPtr, CType.int], CType.void⟩

/-- Embedding of line 9 of src/bindings/c/mothra.h:
the declaration of libp2p_send_gossip, taking a single char* and returning void. -/
def libp2p_send_gossip : CFunDecl :=
  ⟨"libp2p_send_gossip", [CType.charPtr], CType.void⟩

/-- Embedding of line 11 of src/bindings/c/mothra.h:
the declaration of the host callback receive_gossip, taking a single char* and
returning void. -/
def receive_gossip : CFunDecl :=
  ⟨"receive_gossip", [CType.charPtr], CType.void⟩

/-- Bytes conveyed by a NUL-terminated char pointer: a C char* argument carries
exactly the bytes up to (not including) the first zero byte of the buffer.
This is the meaning of the char* parameters declared in src/bindings/c/mothra.h,
which carry the payload with no separate length parameter. -/
def cStringBytes (payload : List Nat) : List Nat :=
  payload.takeWhile (fun b => decide (¬ b = 0))

/-- Opaque identifier of a network participant (spec section 3). -/
abbrev PeerId := Nat

/-- Topic string partitioning the network into broadcast domains (spec section 3). -/
abbrev Topic := String

/-- Deduplication key of a message, a deterministic function of
(originId, sequenceCounter, topic) per spec section 3. -/
abbrev MessageId := PeerId × Nat × Topic

/-- Modelled from the spec: the Message Cache of section 4.2, whose
implementation is not present under src/.  A bounded, time-windowed store of
recently seen message identifiers, each entry mapping a MessageId to its
arrival time. -/
structure MessageCache where
  entries : List (MessageId × Nat)
deriving DecidableEq, Repr

/-- Modelled from the spec: the seen query of the Message Cache contract
(section 4.2), true exactly when the identifier is currently stored. -/
def MessageCache.seen (c : MessageCache) (x : MessageId) : Bool :=
  c.entries.any (fun e => decide (e.1 = x))

/-- Modelled from the spec: the record operation of the Message Cache contract
(section 4.2), storing the identifier with its arrival time. -/
def MessageCache.record (c : MessageCache) (x : MessageId) (t : Nat) : MessageCache :=
  ⟨(x, t) :: c.entries⟩

/-- Modelled from the spec: the evictOlderThan operation of the Message Cache
contract (section 4.2), purging every entry whose arrival time is older than
the given cutoff. -/
def MessageCache.evictOlderThan (c : MessageCache) (t : Nat) : MessageCache :=
  ⟨c.entries.filter (fun e => decide (t ≤ e.2))⟩

/-- Modelled from the spec: the error taxonomy entry UnknownPeer of
section 7, raised when an operation references a peer not in the registry. -/
inductive RegistryError where
  | unknownPeer
deriving DecidableEq, Repr

/-- Modelled from the spec: the Peer Registry of section 4.1, whose
implementation is not present under src/.  It tracks known peers and the
per-topic subscription relation. -/
structure PeerRegistry where
  peers : List PeerId
  subs : List (PeerId × Topic)
deriving DecidableEq, Repr

/-- Registry membership test: whether the peer id is known. -/
def PeerRegistry.knows (r : PeerRegistry) (p : PeerId) : Bool :=
  r.peers.any (fun q => decide (q = p))

/-- Modelled from the spec: addPeer of the Peer Registry contract
(section 4.1); adding an already known id leaves the registry unchanged. -/
def addPeer (r : PeerRegistry) (p : PeerId) : PeerRegistry :=
  if r.knows p then r else ⟨p :: r.peers, r.subs⟩

/-- Modelled from the spec: removePeer of the Peer Registry contract
(section 4.1), removing the peer and all of its subscriptions; on an unknown
id it is a no-op (idempotent). -/
def removePeer (r : PeerRegistry) (p : PeerId) : PeerRegistry :=
  ⟨r.peers.filter (fun q => decide (¬ q = p)),
   r.subs.filter (fun s => decide (¬ s.1 = p))⟩

/-- Modelled from the spec: subscribe of the Peer Registry contract
(section 4.1); on an unknown id it fails with UnknownPeer. -/
def subscribe (r : PeerRegistry) (p : PeerId) (t : Topic) :
    Except RegistryError PeerRegistry :=
  if r.knows p then Except.ok ⟨r.peers, (p, t) :: r.subs⟩
  else Except.error RegistryError.unknownPeer

/-- Modelled from the spec: unsubscribe of the Peer Registry contract
(section 4.1), removing the (peer, topic) subscription pair. -/
def unsubscribe (r : PeerRegistry) (p : PeerId) (t : Topic) : PeerRegistry :=
  ⟨r.peers, r.subs.filter (fun s => decide (¬ (s.1 = p ∧ s.2 = t)))⟩

/-- Modelled from the spec: peersFor of the Peer Registry contract
(section 4.1), the set of peers subscribed to a topic. -/
def peersFor (r : PeerRegistry) (t : Topic) : List PeerId :=
  (r.subs.filter (fun s => decide (s.2 = t))).map Prod.fst

/-- Well-formedness of a registry: every subscription belongs to a known peer.
Registries produced by the contract operations keep this shape. -/
def wellFormedReg (r : PeerRegistry) : Bool :=
  r.subs.all (fun s => r.knows s.1)

/-- Modelled from the spec: the mesh watermark configuration of sections 3
and 4.3 — low watermark, rebalance target size, high watermark. -/
structure MeshParams where
  low : Nat
  target : Nat
  high : Nat
deriving DecidableEq, Repr

/-- Modelled from the spec: the per-topic state kept by the Mesh Manager
(section 4.3), whose implementation is not present under src/: the set of
peers subscribed to the topic and the eager-forward mesh for it.  Topics are
independent broadcast domains, so the state of one topic is modelled. -/
structure MeshState where
  subscribed : List PeerId
  mesh : List PeerId
deriving DecidableEq, Repr

/-- Modelled from the spec: a subscribe control message for the topic
(sections 3 and 4.4) adds the peer to the subscription set. -/
def meshSubscribe (s : MeshState) (p : PeerId) : MeshState :=
  if p ∈ s.subscribed then s else ⟨p :: s.subscribed, s.mesh⟩

/-- Modelled from the spec: an unsubscribe or disconnect for the topic
(sections 3 and 5) removes the peer from the subscription set and from the
mesh membership immediately. -/
def meshUnsubscribe (s : MeshState) (p : PeerId) : MeshState :=
  ⟨s.subscribed.filter (fun q => decide (¬ q = p)),
   s.mesh.filter (fun q => decide (¬ q = p))⟩

/-- Modelled from the spec: the rebalance algorithm of section 4.3.  If the
mesh is below the low watermark, promote randomly chosen subscribed-but-not-
meshed peers until reaching the target size; if above the high watermark,
demote randomly chosen mesh peers down to the target size.  The random choice
is modelled by the shuffle argument, an arbitrary reordering of its input. -/
def rebalance (p : MeshParams) (shuffle : List PeerId → List PeerId)
    (s : MeshState) : MeshState :=
  if s.mesh.length < p.low then
    let cands := shuffle (s.subscribed.filter (fun q => decide (¬ q ∈ s.mesh)))
    ⟨s.subscribed, s.mesh ++ cands.take (p.target - s.mesh.length)⟩
  else if p.high < s.mesh.length then
    ⟨s.subscribed, (shuffle s.mesh).take p.target⟩
  else s

/-- States of one topic reachable from the empty initial state by the
operations the spec allows to touch mesh membership: subscribe control
messages, unsubscribe/disconnect, and rebalance runs (with any shuffle that
permutes its input, the model of random choice). -/
inductive ReachableMesh (p : MeshParams) : MeshState → Prop where
  | init : ReachableMesh p ⟨[], []⟩
  | sub (s : MeshState) (q : PeerId) :
      ReachableMesh p s → ReachableMesh p (meshSubscribe s q)
  | unsub (s : MeshState) (q : PeerId) :
      ReachableMesh p s → ReachableMesh p (meshUnsubscribe s q)
  | rebal (s : MeshState) (shuffle : List PeerId → List PeerId) :
      ReachableMesh p s → (∀ l, List.Perm (shuffle l) l) →
      ReachableMesh p (rebalance p shuffle s)

/-- Decidable form of spec invariant (a): every mesh member is subscribed. -/
def meshWithinSubs (s : MeshState) : Bool :=
  s.mesh.all (fun q => decide (q ∈ s.subscribed))

/-- Modelled from the spec: the immutable Message value of section 3 —
origin id, sequence counter, topic, payload bytes, timestamp. -/
structure Message where
  originId : PeerId
  seqno : Nat
  topic : Topic
  payload : List Nat
  timestamp : Nat
deriving DecidableEq, Repr

/-- Modelled from the spec: the MessageId of section 3, a deterministic
content-addressed key over (originId, sequenceCounter, topic). -/
def messageId (m : Message) : MessageId :=
  (m.originId, m.seqno, m.topic)

/-- Modelled from the spec: the structural validation bounds of the receive
path (section 4.4) — maximal payload size and timestamp freshness window. -/
structure ValidationConfig where
  maxPayload : Nat
  timestampWindow : Nat
deriving DecidableEq, Repr

/-- Modelled from the spec: basic structural validation on the receive path
(section 4.4): non-empty topic, bounded payload size, non-expired timestamp
window. -/
def validate (cfg : ValidationConfig) (now : Nat) (m : Message) : Bool :=
  decide (¬ m.topic = "") && decide (m.payload.length ≤ cfg.maxPayload) &&
    decide (now ≤ m.timestamp + cfg.timestampWindow)

/-- Observable effects of one Propagation Engine step: the payloads delivered
to the host through the receive_gossip callback, and the peers the message is
forwarded to. -/
structure RecvEffects where
  hostDeliveries : List (List Nat)
  forwards : List PeerId
deriving DecidableEq, Repr

/-- Step with no observable effect (a dropped message). -/
def noEffects : RecvEffects := ⟨[], []⟩

/-- Modelled from the spec: the receive path of the Propagation Engine
(section 4.4), whose implementation is not present under src/.  A frame from
sender on the wire is validated; invalid messages are dropped; a message whose
id is already seen is dropped as a duplicate; a novel message is recorded in
the cache, delivered to the host callback once, and forwarded to the mesh of
its topic minus the sender. -/
def handleReceive (cfg : ValidationConfig) (meshFor : Topic → List PeerId)
    (c : MessageCache) (sender : PeerId) (now : Nat) (m : Message) :
    MessageCache × RecvEffects :=
  if validate cfg now m then
    if c.seen (messageId m) then (c, noEffects)
    else
      (c.record (messageId m) now,
       ⟨[m.payload], (meshFor m.topic).filter (fun q => decide (¬ q = sender))⟩)
  else (c, noEffects)

/-- Modelled from the spec: the publish path of the Propagation Engine
(section 4.4), whose implementation is not present under src/.  The local
origin constructs the Message, records its id in the cache, skips the host
delivery (it is the origin), and forwards to the full mesh of the topic. -/
def publish (meshFor : Topic → List PeerId) (c : MessageCache) (self : PeerId)
    (seq : Nat) (t : Topic) (payload : List Nat) (now : Nat) :
    MessageCache × RecvEffects :=
  let m : Message := ⟨self, seq, t, payload, now⟩
  (c.record (messageId m) now, ⟨[], meshFor t⟩)

/-- Modelled from the spec: the sendGossip boundary adapter of section 6,
whose implementation is not present under src/.  It enqueues a publish of the
payload and returns the new queue; it is total and returns no error value, so
no delivery failure can be reported to the caller. -/
def sendGossip (queue : List (List Nat)) (payload : List Nat) :
    List (List Nat) :=
  queue ++ [payload]

theorem cStringBytes_cons_ne (a : Nat) (q : List Nat) (h : ¬ a = 0) :
    cStringBytes (a :: q) = a :: cStringBytes q := by
  simp [cStringBytes, List.takeWhile_cons, h]

theorem cStringBytes_eq_take_indexOf (p : List Nat) :
    cStringBytes p = p.take (p.indexOf 0) := by
  induction p with
  | nil => rfl
  | cons a q ih =>
    by_cases h : a = 0
    · subst h
      simp [cStringBytes, List.indexOf_cons_self]
    · simp [List.indexOf_cons_ne q h, cStringBytes_cons_ne a q h, ih]

/-- C9: the C call boundary carries no topic parameter in either direction —
libp2p_send_gossip takes a single char* argument and the receive_gossip host
callback takes a single char* argument, so no call crossing this boundary
carries an independently representable topic. -/
theorem boundary_single_string_no_topic :
    libp2p_send_gossip.args = [CType.charPtr] ∧
    receive_gossip.args = [CType.charPtr] ∧
    libp2p_send_gossip.args.length = 1 ∧
    receive_gossip.args.length = 1 :=
  ⟨rfl, rfl, rfl, rfl⟩

/-- C6, counterexample: the claim that sendGossip takes a topic string and a
payload byte string fails on the declared boundary — libp2p_send_gossip has
one parameter, not two. -/
theorem send_gossip_not_topic_and_payload :
    ¬ libp2p_send_gossip.args.length = 2 := by
  decide

/-- C6, amended: libp2p_send_gossip takes a single NUL-terminated string
argument (the payload; the C boundary carries no separate topic parameter),
enqueues a publish, and returns void, so no delivery failure is reported to
the caller. -/
theorem send_gossip_single_arg_fire_and_forget (q : List (List Nat))
    (pl x : List Nat) (hx : x ∈ q) :
    libp2p_send_gossip.args = [CType.charPtr] ∧
    libp2p_send_gossip.ret = CType.void ∧
    pl ∈ sendGossip q pl ∧ x ∈ sendGossip q pl :=
  ⟨rfl, rfl, by simp [sendGossip], by simp [sendGossip, hx]⟩

/-- Witness for the amended C6 theorem at a concrete queue and payload. -/
theorem send_gossip_single_arg_fire_and_forget_wit :
    libp2p_send_gossip.args = [CType.charPtr] ∧
    libp2p_send_gossip.ret = CType.void ∧
    [7] ∈ sendGossip [[1], [2]] [7] ∧ [2] ∈ sendGossip [[1], [2]] [7] :=
  send_gossip_single_arg_fire_and_forget [[1], [2]] [7] [2] (by decide)

/-- C10: both boundary functions pass the payload as a NUL-terminated char*
with no length parameter; the bytes conveyed are exactly those preceding the
first zero byte, and a payload containing a zero byte is not representable
unmodified at this interface. -/
theorem payload_nul_terminated (p : List Nat) :
    CType.int ∉ libp2p_send_gossip.args ∧
    CType.int ∉ receive_gossip.args ∧
    cStringBytes p = p.take (p.indexOf 0) ∧
    (0 ∈ p → cStringBytes p ≠ p) := by
  refine ⟨by decide, by decide, cStringBytes_eq_take_indexOf p, ?_⟩
  intro hz he
  have hm : (0 : Nat) ∈ cStringBytes p := by rw [he]; exact hz
  have := List.mem_takeWhile_imp hm
  simp at this

/-- Witness for C10 at the concrete payload 104, 0, 105: only the byte 104 is
conveyed across the boundary. -/
theorem payload_nul_terminated_wit :
    cStringBytes [104, 0, 105] = [104, 0, 105].take ([104, 0, 105].indexOf 0) ∧
    cStringBytes [104, 0, 105] ≠ [104, 0, 105] :=
  ⟨(payload_nul_terminated [104, 0, 105]).2.2.1,
   (payload_nul_terminated [104, 0, 105]).2.2.2 (by decide)⟩

/-- C3: for every id, seen immediately after record with no eviction in
between returns true. -/
theorem seen_after_record (c : MessageCache) (x : MessageId) (t : Nat) :
    (c.record x t).seen x = true := by
  simp [MessageCache.record, MessageCache.seen]

/-- Witness for C3 at a concrete cache and id. -/
theorem seen_after_record_wit :
    (MessageCache.record ⟨[]⟩ (1, 2, "alpha") 5).seen (1, 2, "alpha") = true :=
  seen_after_record ⟨[]⟩ (1, 2, "alpha") 5

/-- C1: while a MessageId is recorded in the cache (seen holds, not yet
evicted), a second receipt of that message is dropped as a duplicate: the
cache is unchanged and no receiveGossip host delivery and no forwarding
happens. -/
theorem duplicate_receipt_dropped (cfg : ValidationConfig)
    (meshFor : Topic → List PeerId) (c : MessageCache) (sender : PeerId)
    (now : Nat) (m : Message) (h : c.seen (messageId m) = true) :
    handleReceive cfg meshFor c sender now m = (c, noEffects) := by
  unfold handleReceive
  split
  · simp [h]
  · rfl

/-- Witness for C1: a concrete second receipt of an already cached message
produces no host delivery and no forwarding. -/
theorem duplicate_receipt_dropped_wit :
    handleReceive ⟨10, 10⟩ (fun _ => [2, 3]) ⟨[((1, 0, "alpha"), 0)]⟩ 2 0
      ⟨1, 0, "alpha", [7], 0⟩ = (⟨[((1, 0, "alpha"), 0)]⟩, noEffects) :=
  duplicate_receipt_dropped ⟨10, 10⟩ (fun _ => [2, 3]) ⟨[((1, 0, "alpha"), 0)]⟩
    2 0 ⟨1, 0, "alpha", [7], 0⟩ (by decide)

/-- C2: a novel valid message received from a sender is delivered to the host
exactly once and forwarded to exactly the mesh of its topic minus the sender
(never echoed back), while a local publish delivers nothing to the host and
forwards to the full mesh of the topic. -/
theorem novel_forward_publish (cfg : ValidationConfig)
    (meshFor : Topic → List PeerId) (c : MessageCache) (sender : PeerId)
    (now : Nat) (m : Message) (self : PeerId) (seq : Nat) (t : Topic)
    (payload : List Nat) (pnow : Nat)
    (hv : validate cfg now m = true) (hn : c.seen (messageId m) = false) :
    (handleReceive cfg meshFor c sender now m).2.hostDeliveries = [m.payload] ∧
    (handleReceive cfg meshFor c sender now m).2.forwards =
      (meshFor m.topic).filter (fun q => decide (¬ q = sender)) ∧
    sender ∉ (handleReceive cfg meshFor c sender now m).2.forwards ∧
    (publish meshFor c self seq t payload pnow).2.hostDeliveries = [] ∧
    (publish meshFor c self seq t payload pnow).2.forwards = meshFor t := by
  refine ⟨?_, ?_, ?_, rfl, rfl⟩ <;> simp [handleReceive, hv, hn, List.mem_filter]

/-- Witness for C2 with mesh 1, 2, 3 and sender 2: the message is delivered
once, forwarded to 1 and 3 only, and the publish path forwards to the full
mesh with no self-delivery. -/
theorem novel_forward_publish_wit :
    (handleReceive ⟨10, 10⟩ (fun _ => [1, 2, 3]) ⟨[]⟩ 2 0
      ⟨1, 0, "alpha", [7], 0⟩).2.hostDeliveries = [[7]] ∧
    (handleReceive ⟨10, 10⟩ (fun _ => [1, 2, 3]) ⟨[]⟩ 2 0
      ⟨1, 0, "alpha", [7], 0⟩).2.forwards =
      ([1, 2, 3].filter (fun q => decide (¬ q = 2))) ∧
    2 ∉ (handleReceive ⟨10, 10⟩ (fun _ => [1, 2, 3]) ⟨[]⟩ 2 0
      ⟨1, 0, "alpha", [7], 0⟩).2.forwards ∧
    (publish (fun _ => [1, 2, 3]) ⟨[]⟩ 1 0 "alpha" [7] 0).2.hostDeliveries = [] ∧
    (publish (fun _ => [1, 2, 3]) ⟨[]⟩ 1 0 "alpha" [7] 0).2.forwards = [1, 2, 3] :=
  novel_forward_publish ⟨10, 10⟩ (fun _ => [1, 2, 3]) ⟨[]⟩ 2 0
    ⟨1, 0, "alpha", [7], 0⟩ 1 0 "alpha" [7] 0 (by decide) (by decide)

theorem seen_record_evict_false (c : MessageCache) (x : MessageId)
    (t tCut : Nat) (h0 : c.seen x = false) (ht : t < tCut) :
    ((c.record x t).evictOlderThan tCut).seen x = false := by
  simp only [MessageCache.record, MessageCache.evictOlderThan,
    MessageCache.seen, List.any_eq_false, decide_eq_true_eq] at h0 ⊢
  intro e he
  rcases List.mem_filter.mp he with ⟨hmem, hkeep⟩
  rcases List.mem_cons.mp hmem with hhd | htl
  · subst hhd
    simp only [decide_eq_true_eq] at hkeep
    omega
  · exact h0 e htl

/-- C8: a duplicate arriving after its cache entry was evicted is treated as
novel — it is re-delivered to the host and forwarded again, the documented
bounded-false-negative behavior of the bounded cache. -/
theorem evicted_duplicate_redelivered (cfg : ValidationConfig)
    (meshFor : Topic → List PeerId) (c : MessageCache) (sender : PeerId)
    (now : Nat) (m : Message) (t tCut : Nat)
    (h0 : c.seen (messageId m) = false) (ht : t < tCut)
    (hv : validate cfg now m = true) :
    (handleReceive cfg meshFor ((c.record (messageId m) t).evictOlderThan tCut)
      sender now m).2.hostDeliveries = [m.payload] ∧
    (handleReceive cfg meshFor ((c.record (messageId m) t).evictOlderThan tCut)
      sender now m).2.forwards =
      (meshFor m.topic).filter (fun q => decide (¬ q = sender)) := by
  have hs := seen_record_evict_false c (messageId m) t tCut h0 ht
  constructor <;> simp [handleReceive, hv, hs]

/-- Witness for C8: after recording at time 0 and evicting entries older than
time 5, the same concrete message is delivered to the host again. -/
theorem evicted_duplicate_redelivered_wit :
    (handleReceive ⟨10, 10⟩ (fun _ => [2, 3]) ((MessageCache.record ⟨[]⟩
      (messageId ⟨1, 0, "alpha", [7], 0⟩) 0).evictOlderThan 5) 2 0
      ⟨1, 0, "alpha", [7], 0⟩).2.hostDeliveries = [[7]] ∧
    (handleReceive ⟨10, 10⟩ (fun _ => [2, 3]) ((MessageCache.record ⟨[]⟩
      (messageId ⟨1, 0, "alpha", [7], 0⟩) 0).evictOlderThan 5) 2 0
      ⟨1, 0, "alpha", [7], 0⟩).2.forwards =
      ([2, 3].filter (fun q => decide (¬ q = 2))) :=
  evicted_duplicate_redelivered ⟨10, 10⟩ (fun _ => [2, 3]) ⟨[]⟩ 2 0
    ⟨1, 0, "alpha", [7], 0⟩ 0 5 (by decide) (by decide) (by decide)

/-- C7: removePeer on an id absent from the registry is a no-op, and
subscribe on an unknown id fails with UnknownPeer instead of creating a
subscription. -/
theorem removePeer_noop_subscribe_unknown (r : PeerRegistry) (p : PeerId)
    (t : Topic) (h1 : r.knows p = false) (h2 : wellFormedReg r = true) :
    removePeer r p = r ∧
    subscribe r p t = Except.error RegistryError.unknownPeer := by
  have hknows : ∀ q ∈ r.peers, ¬ q = p := by
    intro q hq
    simp only [PeerRegistry.knows, List.any_eq_false, decide_eq_true_eq] at h1
    exact h1 q hq
  have hp : r.peers.filter (fun q => decide (¬ q = p)) = r.peers :=
    List.filter_eq_self.mpr (fun a ha => by simpa using hknows a ha)
  have hs : r.subs.filter (fun s => decide (¬ s.1 = p)) = r.subs := by
    apply List.filter_eq_self.mpr
    intro s hsmem
    have hk : r.knows s.1 = true := by
      simp only [wellFormedReg, List.all_eq_true] at h2
      exact h2 s hsmem
    simp only [PeerRegistry.knows, List.any_eq_true, decide_eq_true_eq] at hk
    rcases hk with ⟨q, hq, hqe⟩
    rw [← hqe]
    simpa using hknows q hq
  refine ⟨?_, by simp [subscribe, h1]⟩
  unfold removePeer
  rw [hp, hs]

/-- Witness for C7 at a concrete registry: removing the unknown peer 7 leaves
the registry unchanged and subscribing it fails with UnknownPeer. -/
theorem removePeer_noop_subscribe_unknown_wit :
    removePeer ⟨[1, 2], [(1, "alpha")]⟩ 7 = ⟨[1, 2], [(1, "alpha")]⟩ ∧
    subscribe ⟨[1, 2], [(1, "alpha")]⟩ 7 "beta" =
      Except.error RegistryError.unknownPeer :=
  removePeer_noop_subscribe_unknown ⟨[1, 2], [(1, "alpha")]⟩ 7 "beta"
    (by decide) (by decide)

theorem meshWithinSubs_iff (s : MeshState) :
    meshWithinSubs s = true ↔ ∀ q ∈ s.mesh, q ∈ s.subscribed := by
  simp [meshWithinSubs]

/-- C4: in every reachable state, a peer belongs to the mesh of the topic
only if it is subscribed to it — mesh membership is contained in the
subscription relation. -/
theorem mesh_subset_subscription (p : MeshParams) (s : MeshState)
    (h : ReachableMesh p s) : meshWithinSubs s = true := by
  induction h with
  | init => rfl
  | sub s q hr ih =>
    rw [meshWithinSubs_iff] at ih ⊢
    intro r hrm
    by_cases hq : q ∈ s.subscribed
    · simp only [meshSubscribe, if_pos hq] at hrm ⊢
      exact ih r hrm
    · simp only [meshSubscribe, if_neg hq] at hrm ⊢
      exact List.mem_cons_of_mem q (ih r hrm)
  | unsub s q hr ih =>
    rw [meshWithinSubs_iff] at ih ⊢
    intro r hrm
    simp only [meshUnsubscribe] at hrm ⊢
    rcases List.mem_filter.mp hrm with ⟨hmem, hne⟩
    exact List.mem_filter.mpr ⟨ih r hmem, hne⟩
  | rebal s shuffle hr hperm ih =>
    rw [meshWithinSubs_iff] at ih ⊢
    intro r hrm
    by_cases h1 : s.mesh.length < p.low
    · simp only [rebalance, if_pos h1] at hrm ⊢
      rcases List.mem_append.mp hrm with hl | hr2
      · exact ih r hl
      · have hsh : r ∈ shuffle (s.subscribed.filter (fun q => decide (¬ q ∈ s.mesh))) :=
          List.take_subset _ _ hr2
        have hfl : r ∈ s.subscribed.filter (fun q => decide (¬ q ∈ s.mesh)) :=
          (hperm _).mem_iff.mp hsh
        exact (List.mem_filter.mp hfl).1
    · by_cases h2 : p.high < s.mesh.length
      · simp only [rebalance, if_neg h1, if_pos h2] at hrm ⊢
        have hsh : r ∈ shuffle s.mesh := List.take_subset _ _ hrm
        exact ih r ((hperm _).mem_iff.mp hsh)
      · simp only [rebalance, if_neg h1, if_neg h2] at hrm ⊢
        exact ih r hrm

/-- Witness for C4 at a concrete reachable state: two subscribes followed by
a rebalance keep the mesh inside the subscription set. -/
theorem mesh_subset_subscription_wit :
    meshWithinSubs (rebalance ⟨1, 1, 2⟩ (fun l => l)
      (meshSubscribe (meshSubscribe ⟨[], []⟩ 1) 2)) = true :=
  mesh_subset_subscription ⟨1, 1, 2⟩ _
    (ReachableMesh.rebal _ _
      (ReachableMesh.sub _ _ (ReachableMesh.sub _ _ ReachableMesh.init))
      (fun l => List.Perm.refl l))

/-- C5: for any topic with at least high-watermark subscribed peers (no
duplicate subscriptions), the mesh size after a rebalance run lies within the
low and high watermarks, for any random choice of promoted or demoted
peers. -/
theorem rebalance_mesh_bounds (p : MeshParams)
    (shuffle : List PeerId → List PeerId) (s : MeshState)
    (hlt : p.low ≤ p.target) (hth : p.target ≤ p.high)
    (hnd : s.subscribed.Nodup) (hhi : p.high ≤ s.subscribed.length)
    (hperm : ∀ l, List.Perm (shuffle l) l) :
    p.low ≤ (rebalance p shuffle s).mesh.length ∧
    (rebalance p shuffle s).mesh.length ≤ p.high := by
  by_cases h1 : s.mesh.length < p.low
  · have hcands :
        (shuffle (s.subscribed.filter (fun q => decide (¬ q ∈ s.mesh)))).length =
        (s.subscribed.filter (fun q => decide (¬ q ∈ s.mesh))).length :=
      (hperm _).length_eq
    have hin : (s.subscribed.filter (fun q => decide (q ∈ s.mesh))).length ≤
        s.mesh.length := by
      have hndf : (s.subscribed.filter (fun q => decide (q ∈ s.mesh))).Nodup :=
        hnd.filter _
      have hsub : (s.subscribed.filter (fun q => decide (q ∈ s.mesh))) ⊆ s.mesh := by
        intro a ha
        have := (List.mem_filter.mp ha).2
        simpa using this
      exact (List.subperm_of_subset hndf hsub).length_le
    have hsplit := s.subscribed.length_eq_length_filter_add
      (fun q => decide (q ∈ s.mesh))
    have heq : (s.subscribed.filter (fun a => ! decide (a ∈ s.mesh))) =
        (s.subscribed.filter (fun q => decide (¬ q ∈ s.mesh))) := by
      apply List.filter_congr
      intro a _
      simp [decide_not]
    rw [heq] at hsplit
    have key : (rebalance p shuffle s).mesh.length = p.target := by
      simp only [rebalance, if_pos h1, List.length_append, List.length_take,
        hcands]
      omega
    omega
  · by_cases h2 : p.high < s.mesh.length
    · have key : (rebalance p shuffle s).mesh.length = p.target := by
        simp only [rebalance, if_neg h1, if_pos h2, List.length_take,
          (hperm s.mesh).length_eq]
        omega
      omega
    · have key : (rebalance p shuffle s).mesh = s.mesh := by
        simp [rebalance, h1, h2]
      rw [key]
      omega

/-- Witness for C5: watermarks 2 and 4 with target 3, four subscribed peers
and an empty mesh — after rebalance the mesh size is within the bounds. -/
theorem rebalance_mesh_bounds_wit :
    2 ≤ (rebalance ⟨2, 3, 4⟩ (fun l => l) ⟨[0, 1, 2, 3], []⟩).mesh.length ∧
    (rebalance ⟨2, 3, 4⟩ (fun l => l) ⟨[0, 1, 2, 3], []⟩).mesh.length ≤ 4 :=
  rebalance_mesh_bounds ⟨2, 3, 4⟩ (fun l => l) ⟨[0, 1, 2, 3], []⟩ (by decide)
    (by decide) (by decide) (by decide) (fun l => List.Perm.refl l)

end Mothra
